/-
Verification of the trace-tree accounting engine in
src/newrelic/api/time_trace.py (class TimeTrace).

The embedding models wall-clock times as integers: the engine applies only
addition, subtraction, min, max and order comparisons to times, so any
linearly ordered commutative ring is a faithful model of the float
timestamps of the source, and integers keep every definition evaluable
inside proofs. The heap of TimeTrace objects is a function from
identifiers to trace records, and the external Registry (trace cache) is
a per-context stack of identifiers. The operations
below are transcribed from the source methods named in their doc comments.
-/
import Mathlib

/-- Node handed to the transaction and to the parent when a trace is
finalized. In the source, create_node of the base class returns the trace
object itself; process_child reads only start_time, end_time and duration
from it. The id field records which trace produced the node, so that node
production is observable. -/
structure Node where
  id : Nat
  start_time : ℤ
  end_time : ℤ
  duration : ℤ
deriving DecidableEq, Repr

/-- State of one TimeTrace object (TimeTrace.__init__, time_trace.py lines
34 to 56). The field min_child_start_time is float infinity initially; it is
modelled as an Option with none standing for infinity. The captured error
triple exc_data is modelled as a Bool recording whether a triple is held.
Fields irrelevant to the verified claims (guid, thread_id, attribute maps,
should_record_segment_params, source metadata) are omitted; user attributes
are modelled separately for add_custom_attribute. The terminal_node hook of
segment variants is modelled by the field is_terminal; the base class
returns False. -/
structure TraceState where
  parent : Option Nat := none
  root : Option Nat := none
  child_count : Nat := 0
  children : List Node := []
  start_time : ℤ := 0
  end_time : ℤ := 0
  duration : ℤ := 0
  exclusive : ℤ := 0
  activated : Bool := false
  exited : Bool := false
  is_async : Bool := false
  has_async_children : Bool := false
  min_child_start_time : Option ℤ := none
  exc_data : Bool := false
  is_terminal : Bool := false
deriving DecidableEq, Repr

/-- Global state of one execution context: the trace heap, the Registry
stack (modelled from the spec, section 6, since the trace cache module is
not part of the analysed source: current is the head, push is cons,
pop_current removes the given id wherever it is), and the owning
transaction. txnNodes records, in order, the nodes handed to the
transaction by _process_node. txnAlive models the owning transaction still
being reachable from the root. -/
structure World where
  traces : Nat → TraceState
  registry : List Nat := []
  txnNodes : List Node := []
  txnAlive : Bool := true
  txnStopped : Bool := false
  txnEnabled : Bool := true
  txnEndTime : ℤ := 0

/-- Update of one trace record in the heap. -/
def World.set (w : World) (i : Nat) (t : TraceState) : World :=
  { w with traces := fun j => if j = i then t else w.traces j }

/-- TimeTrace.has_outstanding_children (lines 465-466). -/
def hasOutstandingChildren (t : TraceState) : Bool :=
  t.children.length != t.child_count

/-- TimeTrace._ready_to_complete (lines 468-477). -/
def readyToComplete (t : TraceState) : Bool :=
  t.exited && !(hasOutstandingChildren t)

/-- TimeTrace.increment_child_count (lines 609-620): count the new child
and recompute has_async_children from the number of outstanding children. -/
def incrementChildCount (t : TraceState) : TraceState :=
  let t2 := { t with child_count := t.child_count + 1 }
  if t2.child_count - t2.children.length > 1 then
    { t2 with has_async_children := true }
  else
    { t2 with has_async_children := false }

/-- Result of one step of TimeTrace.update_async_exclusive_time: the world
after the exclusive update of the visited trace, the parent reference of
the visited trace, the advanced interval start, and the remaining duration
to pass up the chain. -/
structure AsyncStep where
  w : World
  parent : Option Nat
  minStart2 : ℤ
  rem : ℤ

/-- Body of TimeTrace.update_async_exclusive_time (lines 565-590) for the
trace visited at one level of the walk: compute the overlap delta (zero
when the trace exited before the interval, the partial overlap up to the
end time when the trace exited inside it, the full remaining duration when
the trace is still running), subtract it from the exclusive time, advance
the interval start past an exited trace, and report the remainder. -/
def asyncStep (w : World) (i : Nat) (minStart dur : ℤ) : AsyncStep :=
  let t := w.traces i
  let delta : ℤ :=
    if t.exited && decide (t.end_time < minStart) then 0
    else if t.exited then t.end_time - minStart
    else dur
  let minStart2 : ℤ :=
    if t.exited && decide (t.end_time < minStart) then minStart
    else if t.exited then t.end_time
    else minStart
  { w := w.set i { t with exclusive := t.exclusive - delta },
    parent := t.parent, minStart2 := minStart2, rem := dur - delta }

/-- TimeTrace.update_async_exclusive_time (lines 565-590): walk up the
parent chain applying asyncStep while a parent exists and a positive
duration remains. The source recursion follows parent references; the fuel
argument bounds the walk, and any fuel at least the length of the parent
chain computes the behaviour of the source. -/
def updateAsyncExclusiveTime : Nat → World → Nat → ℤ → ℤ → World
  | 0, w, i, minStart, dur => (asyncStep w i minStart dur).w
  | Nat.succ fuel2, w, i, minStart, dur =>
    let s := asyncStep w i minStart dur
    match s.parent with
    | some p => if 0 < s.rem then updateAsyncExclusiveTime fuel2 s.w p s.minStart2 s.rem else s.w
    | none => s.w

/-- Running minimum of Python float min applied to the tracked minimum child
start time (float infinity modelled as none) and a new start time. -/
def minUpd (m : Option ℤ) (s : ℤ) : ℤ :=
  match m with
  | none => s
  | some a => min a s

/-- TimeTrace.process_child (lines 592-607): append the finished child node;
in the synchronous case subtract its duration from the exclusive time of
the parent, in the asynchronous case track the minimum start time of the
outstanding batch and, when the batch fully resolves, run the recursive
overlap correction and reset the minimum to infinity. -/
def processChild (fuel : Nat) (w : World) (p : Nat) (node : Node) (isAsync : Bool) : World :=
  let t := w.traces p
  let t2 := { t with children := t.children ++ [node] }
  if isAsync then
    let m : ℤ := minUpd t2.min_child_start_time node.start_time
    let t3 := { t2 with min_child_start_time := some m }
    if t3.child_count = t3.children.length then
      let exclusiveDuration := node.end_time - m
      let w2 := w.set p t3
      let w3 := updateAsyncExclusiveTime fuel w2 p m exclusiveDuration
      w3.set p { w3.traces p with min_child_start_time := none }
    else
      w.set p t3
  else
    w.set p { t2 with exclusive := t2.exclusive - node.duration }

/-- Node constructed from a trace record; create_node of the base class
(lines 559-560) returns the trace itself, of which process_child and the
transaction read the timing fields. -/
def mkNode (i : Nat) (t : TraceState) : Node :=
  { id := i, start_time := t.start_time, end_time := t.end_time, duration := t.duration }

/-- TimeTrace._complete_trace (lines 486-554). If the parent reference is
already cleared, the source only logs and returns; this is the identity
here. Otherwise: decide is_async from the parent, pop self from the
Registry, clear the parent and root references and the captured error
data, build the node (create_node returns self), hand the node to the
transaction and then to the parent via process_child, and finally
re-invoke complete_trace on the parent, which may have been waiting on
this child. The error observation and finalize_data hooks touch only
attribute data outside this model. The fuel argument bounds the recursion
up the parent chain. -/
def completeBody (fuel : Nat) (w : World) (i : Nat) : World × Option Nat :=
  let t := w.traces i
  match t.parent with
  | none => (w, none)
  | some p =>
    let pt := w.traces p
    let isAsync := if pt.exited || pt.has_async_children then true else t.is_async
    let t2 := { t with is_async := isAsync, parent := none, exc_data := false, root := none }
    let w2 := w.set i t2
    let w3 := { w2 with registry := w2.registry.erase i }
    let node := mkNode i t2
    let w4 := { w3 with txnNodes := w3.txnNodes ++ [node] }
    let w5 := processChild fuel w4 p node isAsync
    (w5, some p)

/-- Recursion of TimeTrace._complete_trace: after the body, parent.complete_trace
is re-invoked, finalizing the parent when this child was the last one
outstanding. The fuel argument bounds the recursion up the parent chain;
any fuel at least the chain length computes the behaviour of the source. -/
def completeTraceAux : Nat → World → Nat → World
  | 0, w, i => (completeBody 0 w i).1
  | Nat.succ fuel2, w, i =>
    let r := completeBody (Nat.succ fuel2) w i
    match r.2 with
    | some p => if readyToComplete (r.1.traces p) then completeTraceAux fuel2 r.1 p else r.1
    | none => r.1

/-- TimeTrace.complete_trace (lines 479-484): called by children when node
creation was deferred; finalizes only once the final child has completed. -/
def completeTrace (fuel : Nat) (w : World) (i : Nat) : World :=
  if readyToComplete (w.traces i) then completeTraceAux fuel w i else w

/-- TimeTrace.__exit__ (lines 124-187). The excRaised flag models the
captured exception triple. The defect paths (no parent, not activated,
transaction gone) return with no state change; the source only logs there
and never raises. Otherwise the end time is stamped (frozen transaction
end time if the transaction was stopped), clamped to the start time,
duration and exclusive time are computed with the exclusive floor of zero,
and the trace either finalizes immediately or is only popped from the
Registry while outstanding children keep running. -/
def exitTrace (fuel : Nat) (w : World) (i : Nat) (now : ℤ) (excRaised : Bool) : World :=
  let t := w.traces i
  if t.parent = none then w
  else if !t.activated then w
  else if !w.txnAlive then w
  else
    let e0 : ℤ := if w.txnStopped then w.txnEndTime else now
    let e : ℤ := if e0 < t.start_time then t.start_time else e0
    let d := e - t.start_time
    let t2 := { t with
      end_time := e, duration := d,
      exclusive := max (t.exclusive + d) 0,
      exited := true, exc_data := excRaised }
    let w2 := w.set i t2
    if readyToComplete t2 then completeTraceAux fuel w2 i
    else { w2 with registry := w2.registry.erase i }

/-- Result of TimeTrace.__enter__: which object the caller receives, or
that the call raised. attrError marks the paths where the source would
raise an AttributeError reading parent.root.transaction (parent without a
root, or the transaction no longer reachable); these are unreachable for
parents that were entered normally inside a live transaction. -/
inductive EnterResult where
  | selfObj : EnterResult
  | parentObj : Nat → EnterResult
  | raised : EnterResult
  | attrError : EnterResult
deriving DecidableEq, Repr

/-- TimeTrace.__enter__ (lines 73-122). The parent is the stored parent or
the current trace from the Registry. With no parent the segment is inert
and returned as is. An exited or terminal parent aborts the entry and
returns the parent object. A stopped or disabled transaction aborts and
returns the segment with the parent link cleared. Otherwise the parent
child count is incremented, root and start time are stored, and the
segment is pushed onto the Registry; if the push raises (pushFails), the
source rolls back only the parent link and re-raises. Code-level metrics
extraction after activation touches only attribute data outside this
model. -/
def enter (w : World) (i : Nat) (now : ℤ) (pushFails : Bool) : World × EnterResult :=
  let t := w.traces i
  let pr : Option Nat :=
    match t.parent with
    | some p => some p
    | none => w.registry.head?
  match pr with
  | none => (w.set i { t with parent := none }, EnterResult.selfObj)
  | some p =>
    let w1 := w.set i { t with parent := some p }
    let pt := w1.traces p
    if pt.exited || pt.is_terminal then
      (w1.set i { w1.traces i with parent := none }, EnterResult.parentObj p)
    else
      match pt.root with
      | none => (w1, EnterResult.attrError)
      | some r =>
        if !w1.txnAlive then (w1, EnterResult.attrError)
        else if w1.txnStopped || !w1.txnEnabled then
          (w1.set i { w1.traces i with parent := none }, EnterResult.selfObj)
        else
          let w2 := w1.set p (incrementChildCount pt)
          let w3 := w2.set i { w2.traces i with root := some r, start_time := now }
          if pushFails then
            (w3.set i { w3.traces i with parent := none }, EnterResult.raised)
          else
            let w4 := { w3 with registry := i :: w3.registry }
            (w4.set i { w4.traces i with activated := true }, EnterResult.selfObj)

/-- Modelled from the spec: MAX_NUM_USER_ATTRIBUTES is imported from
newrelic.core.attribute, a module that is not part of the analysed source;
the agent limit for user attributes on a trace is 128. No claim below
depends on the concrete value. -/
def MAX_NUM_USER_ATTRIBUTES : Nat := 128

/-- Transaction settings as consumed by add_custom_attribute. -/
structure Settings where
  high_security : Bool
deriving DecidableEq, Repr

/-- Python dict assignment on a string-keyed dict: update in place when the
key is present, append otherwise. -/
def dictInsert {α : Type} (m : List (String × α)) (k : String) (v : α) : List (String × α) :=
  if m.any (fun kv => kv.1 == k) then
    m.map (fun kv => if kv.1 == k then (k, v) else kv)
  else
    m ++ [(k, v)]

/-- TimeTrace.add_custom_attribute (lines 189-202): settings is the
resolved transaction settings, none when no transaction resolves. The call
is dropped when no settings resolve, in high security mode, or when the
user attribute map is already at the limit. -/
def addCustomAttribute {α : Type} (settings : Option Settings)
    (m : List (String × α)) (k : String) (v : α) : List (String × α) :=
  match settings with
  | none => m
  | some s =>
    if s.high_security then m
    else if MAX_NUM_USER_ATTRIBUTES ≤ m.length then m
    else dictInsert m k v

/-- A sequence of add_custom_attribute calls applied to a user attribute
map, each with the settings that resolved at call time. -/
def applyAttrCalls {α : Type} (calls : List (Option Settings × String × α))
    (m : List (String × α)) : List (String × α) :=
  calls.foldl (fun acc c => addCustomAttribute c.1 acc c.2.1 c.2.2) m


/-- Finite description of a trace heap: identifiers not listed hold a
freshly constructed TimeTrace. -/
def heapOf (l : List (Nat × TraceState)) : Nat → TraceState :=
  fun j =>
    match l.find? (fun x => x.1 == j) with
    | some x => x.2
    | none => {}

/-- World for the C9 witness: trace 1 has a parent link but was never
activated (exit called before a successful entry). -/
def c9World : World :=
  { traces := heapOf [(1, { parent := some 0 })] }

/-- World for the C5 witness: trace 1 is already finalized, that is exited
with the parent and root references cleared and all children resolved. -/
def c5World : World :=
  { traces := heapOf [(1, { exited := true, end_time := 4, duration := 4, exclusive := 4 })] }

/-- World for the C8 scenario: trace 0 is an activated root trace with no
children yet. -/
def c8World : World :=
  { traces := heapOf [(0, { root := some 0, activated := true })] }

/-- First async child of the C8 scenario, running over the interval 0 to 2. -/
def c8NodeA : Node := { id := 1, start_time := 0, end_time := 2, duration := 2 }

/-- Second async child of the C8 scenario, running over the interval 1 to 3. -/
def c8NodeB : Node := { id := 2, start_time := 1, end_time := 3, duration := 2 }

/-- World for the C1 witness: trace 0 is a running parent that has spawned
two children concurrently (child_count 2, none resolved). -/
def c1World : World :=
  { traces := heapOf [(0, { root := some 0, activated := true, child_count := 2 })] }

/-- First async child of the C1 witness, interval 1 to 4. -/
def c1NodeA : Node := { id := 1, start_time := 1, end_time := 4, duration := 3 }

/-- Second async child of the C1 witness, interval 2 to 8. -/
def c1NodeB : Node := { id := 2, start_time := 2, end_time := 8, duration := 6 }

/-- World for the C2 witness: trace 1 is a parent under the running root 0;
it has spawned two synchronous children in total. -/
def c2World : World :=
  { traces := heapOf
      [(0, { root := some 0, activated := true, child_count := 1 }),
       (1, { parent := some 0, root := some 0, activated := true, child_count := 2 })] }

/-- First synchronous child node of the C2 witness, interval 0 to 5. -/
def c2NodeA : Node := { id := 2, start_time := 0, end_time := 5, duration := 5 }

/-- Second synchronous child node of the C2 witness, interval 5 to 8. -/
def c2NodeB : Node := { id := 3, start_time := 5, end_time := 8, duration := 3 }

/-- World for C7: the root 0 is running; trace 1 is a parent that exited
while one child was still outstanding (deferred completion), so it is
exited but not finalized; trace 2 is a fresh segment constructed with
explicit parent 1. -/
def c7World : World :=
  { traces := heapOf
      [(0, { root := some 0, activated := true, child_count := 1 }),
       (1, { parent := some 0, root := some 0, activated := true, exited := true,
             child_count := 1, end_time := 5, duration := 5, exclusive := 5 }),
       (2, { parent := some 1 })] }

/-- World for C6: the root 0 is running and alive; trace 1 is a fresh
segment with explicit parent 0, about to be entered while the Registry
push fails. -/
def c6World : World :=
  { traces := heapOf
      [(0, { root := some 0, activated := true }),
       (1, { parent := some 0 })] }

/-- World for the C3 counterexample, mid execution. The root 0 is running.
Trace 1 ran 0 to 10 and exited with its one child, trace 2, still
unfinalized. Trace 2 ran 0 to 5 and exited with its two async
grandchildren, traces 3 and 4, still running (they started at 1 and 2).
All of this is reachable: each parent exited while children were
outstanding, deferring completion. -/
def c3World : World :=
  { traces := heapOf
      [(0, { root := some 0, activated := true, child_count := 1 }),
       (1, { parent := some 0, root := some 0, activated := true, exited := true,
             child_count := 1, start_time := 0, end_time := 10, duration := 10, exclusive := 10 }),
       (2, { parent := some 1, root := some 0, activated := true, exited := true,
             child_count := 2, start_time := 0, end_time := 5, duration := 5, exclusive := 5 }),
       (3, { parent := some 2, root := some 0, activated := true, start_time := 1 }),
       (4, { parent := some 2, root := some 0, activated := true, start_time := 2 })] }

/-- World for the C3 amended witness: trace 1 is a leaf segment under the
running root 0. -/
def c3LeafWorld : World :=
  { traces := heapOf
      [(0, { root := some 0, activated := true, child_count := 1 }),
       (1, { parent := some 0, root := some 0, activated := true, start_time := 2 })] }

/-- The is_async decision of TimeTrace._complete_trace (lines 501-503) for
trace i finalizing under parent p: deferred completion (parent already
exited) or a concurrent batch on the parent marks the trace async. -/
def childIsAsync (w : World) (i p : Nat) : Bool :=
  if (w.traces p).exited || (w.traces p).has_async_children then true else (w.traces i).is_async

/-- The record of trace i as _complete_trace leaves it: is_async decided,
parent and root cleared, captured error wiped. -/
def finalizedOf (w : World) (i p : Nat) : TraceState :=
  { w.traces i with
    is_async := childIsAsync w i p, parent := none, exc_data := false, root := none }

/-- World for the C4 witness: root 0 running, parent 1 with one spawned
child, child 2 still running. -/
def c4World : World :=
  { traces := heapOf
      [(0, { root := some 0, activated := true, child_count := 1 }),
       (1, { parent := some 0, root := some 0, activated := true, child_count := 1 }),
       (2, { parent := some 1, root := some 0, activated := true, start_time := 1 })] }

/-- Trace record with the exclusive field zeroed; used to state that an
operation touches nothing but exclusive time. -/
def TraceState.exceptExclusive (t : TraceState) : TraceState := { t with exclusive := 0 }

/-- Trace record with the three fields written by process_child zeroed;
used to state that process_child alters nothing else anywhere. -/
def TraceState.core (t : TraceState) : TraceState :=
  { t with exclusive := 0, min_child_start_time := none, children := [] }

/-- Registration of a freshly spawned child on its parent, as performed by
the increment_child_count call inside TimeTrace.__enter__ (line 97). -/
def spawnChild (w : World) (p : Nat) : World :=
  w.set p (incrementChildCount (w.traces p))

theorem set_traces_self (w : World) (i : Nat) (t : TraceState) :
    (w.set i t).traces i = t := by
  simp [World.set]

theorem set_traces_ne (w : World) (i : Nat) (t : TraceState) (j : Nat) (h : j ≠ i) :
    (w.set i t).traces j = w.traces j := by
  simp [World.set, h]

theorem set_txnAlive (w : World) (i : Nat) (t : TraceState) :
    (w.set i t).txnAlive = w.txnAlive := rfl

theorem set_txnStopped (w : World) (i : Nat) (t : TraceState) :
    (w.set i t).txnStopped = w.txnStopped := rfl

theorem set_txnEnabled (w : World) (i : Nat) (t : TraceState) :
    (w.set i t).txnEnabled = w.txnEnabled := rfl

theorem asyncStep_frame (w : World) (i : Nat) (m d : ℤ) :
    (∀ j, (((asyncStep w i m d).w).traces j).exceptExclusive = (w.traces j).exceptExclusive)
    ∧ ((asyncStep w i m d).w).registry = w.registry
    ∧ ((asyncStep w i m d).w).txnNodes = w.txnNodes
    ∧ ((asyncStep w i m d).w).txnAlive = w.txnAlive
    ∧ ((asyncStep w i m d).w).txnStopped = w.txnStopped
    ∧ ((asyncStep w i m d).w).txnEndTime = w.txnEndTime := by
  refine ⟨fun j => ?_, rfl, rfl, rfl, rfl, rfl⟩
  by_cases hj : j = i
  · subst hj; simp [asyncStep, World.set, TraceState.exceptExclusive]
  · simp [asyncStep, World.set, hj]

theorem updateAsync_frame (fuel : Nat) :
    ∀ (w : World) (i : Nat) (m d : ℤ),
      (∀ j, ((updateAsyncExclusiveTime fuel w i m d).traces j).exceptExclusive
          = (w.traces j).exceptExclusive)
      ∧ (updateAsyncExclusiveTime fuel w i m d).registry = w.registry
      ∧ (updateAsyncExclusiveTime fuel w i m d).txnNodes = w.txnNodes
      ∧ (updateAsyncExclusiveTime fuel w i m d).txnAlive = w.txnAlive
      ∧ (updateAsyncExclusiveTime fuel w i m d).txnStopped = w.txnStopped
      ∧ (updateAsyncExclusiveTime fuel w i m d).txnEndTime = w.txnEndTime := by
  induction fuel with
  | zero =>
    intro w i m d
    exact asyncStep_frame w i m d
  | succ n ih =>
    intro w i m d
    have hstep := asyncStep_frame w i m d
    show (∀ j, ((updateAsyncExclusiveTime (Nat.succ n) w i m d).traces j).exceptExclusive
          = (w.traces j).exceptExclusive) ∧ _
    unfold updateAsyncExclusiveTime
    cases hp : (asyncStep w i m d).parent with
    | none => simpa [hp] using hstep
    | some p =>
      by_cases hrem : (0 : ℤ) < (asyncStep w i m d).rem
      · have hrec := ih (asyncStep w i m d).w p (asyncStep w i m d).minStart2 (asyncStep w i m d).rem
        simp only [hp, hrem, if_pos]
        exact ⟨fun j => (hrec.1 j).trans (hstep.1 j),
          hrec.2.1.trans hstep.2.1, hrec.2.2.1.trans hstep.2.2.1,
          hrec.2.2.2.1.trans hstep.2.2.2.1, hrec.2.2.2.2.1.trans hstep.2.2.2.2.1,
          hrec.2.2.2.2.2.trans hstep.2.2.2.2.2⟩
      · simpa [hp, hrem] using hstep


theorem exceptExclusive_children {t1 t2 : TraceState}
    (h : t1.exceptExclusive = t2.exceptExclusive) : t1.children = t2.children := by
  have h2 := congrArg TraceState.children h
  exact h2

theorem core_of_exceptExclusive {t1 t2 : TraceState}
    (h : t1.exceptExclusive = t2.exceptExclusive) : t1.core = t2.core := by
  have h2 := congrArg
    (fun t => { t with min_child_start_time := none, children := ([] : List Node) }) h
  exact h2

theorem processChild_sync_eq (fuel : Nat) (w : World) (p : Nat) (n : Node) :
    processChild fuel w p n false =
      w.set p { w.traces p with
        children := (w.traces p).children ++ [n],
        exclusive := (w.traces p).exclusive - n.duration } := rfl

theorem processChild_nobatch_eq (fuel : Nat) (w : World) (p : Nat) (n : Node)
    (hc : ¬ (w.traces p).child_count = ((w.traces p).children ++ [n]).length) :
    processChild fuel w p n true =
      w.set p { w.traces p with
        children := (w.traces p).children ++ [n],
        min_child_start_time := some (minUpd (w.traces p).min_child_start_time n.start_time) } := by
  unfold processChild
  dsimp only
  rw [if_pos rfl]
  split
  · next h => exact absurd h hc
  · rfl

theorem processChild_batch_eq (fuel : Nat) (w : World) (p : Nat) (n : Node)
    (hc : (w.traces p).child_count = ((w.traces p).children ++ [n]).length) :
    processChild fuel w p n true =
      (updateAsyncExclusiveTime fuel
        (w.set p
          { w.traces p with
            children := (w.traces p).children ++ [n],
            min_child_start_time := some (minUpd (w.traces p).min_child_start_time n.start_time) })
        p (minUpd (w.traces p).min_child_start_time n.start_time)
        (n.end_time - minUpd (w.traces p).min_child_start_time n.start_time)).set p
      { (updateAsyncExclusiveTime fuel
          (w.set p
            { w.traces p with
              children := (w.traces p).children ++ [n],
              min_child_start_time := some (minUpd (w.traces p).min_child_start_time n.start_time) })
          p (minUpd (w.traces p).min_child_start_time n.start_time)
          (n.end_time - minUpd (w.traces p).min_child_start_time n.start_time)).traces p
        with
        min_child_start_time := none } := by
  unfold processChild
  dsimp only
  rw [if_pos rfl]
  split
  · rfl
  · next h => exact absurd hc h

theorem core_min_none (t : TraceState) :
    ({ t with min_child_start_time := none } : TraceState).core = t.core := rfl

theorem processChild_shape (fuel : Nat) (w : World) (p : Nat) (n : Node) (b : Bool) :
    (∀ q, ((processChild fuel w p n b).traces q).core = (w.traces q).core)
    ∧ ((processChild fuel w p n b).traces p).children = (w.traces p).children ++ [n]
    ∧ (processChild fuel w p n b).registry = w.registry
    ∧ (processChild fuel w p n b).txnNodes = w.txnNodes
    ∧ (processChild fuel w p n b).txnAlive = w.txnAlive
    ∧ (processChild fuel w p n b).txnStopped = w.txnStopped
    ∧ (processChild fuel w p n b).txnEndTime = w.txnEndTime := by
  cases b with
  | false =>
    rw [processChild_sync_eq]
    refine ⟨fun q => ?_, ?_, rfl, rfl, rfl, rfl, rfl⟩
    · by_cases hq : q = p
      · rw [hq, set_traces_self]; simp [TraceState.core]
      · rw [set_traces_ne _ _ _ _ hq]
    · rw [set_traces_self]
  | true =>
    by_cases hc : (w.traces p).child_count = ((w.traces p).children ++ [n]).length
    · rw [processChild_batch_eq fuel w p n hc]
      refine ⟨fun q => ?_, ?_, ?_, ?_, ?_, ?_, ?_⟩
      · by_cases hq : q = p
        · rw [hq, set_traces_self]
          refine Eq.trans (core_min_none _) ?_
          refine Eq.trans (core_of_exceptExclusive ((updateAsync_frame fuel _ _ _ _).1 p)) ?_
          rw [set_traces_self]; simp [TraceState.core]
        · rw [set_traces_ne _ _ _ _ hq]
          refine Eq.trans (core_of_exceptExclusive ((updateAsync_frame fuel _ _ _ _).1 q)) ?_
          rw [set_traces_ne _ _ _ _ hq]
      · rw [set_traces_self]
        show ((updateAsyncExclusiveTime fuel _ _ _ _).traces p).children = _
        refine Eq.trans (exceptExclusive_children ((updateAsync_frame fuel _ _ _ _).1 p)) ?_
        rw [set_traces_self]
      · exact (updateAsync_frame fuel _ _ _ _).2.1
      · exact (updateAsync_frame fuel _ _ _ _).2.2.1
      · exact (updateAsync_frame fuel _ _ _ _).2.2.2.1
      · exact (updateAsync_frame fuel _ _ _ _).2.2.2.2.1
      · exact (updateAsync_frame fuel _ _ _ _).2.2.2.2.2
    · rw [processChild_nobatch_eq fuel w p n hc]
      refine ⟨fun q => ?_, ?_, rfl, rfl, rfl, rfl, rfl⟩
      · by_cases hq : q = p
        · rw [hq, set_traces_self]; simp [TraceState.core]
        · rw [set_traces_ne _ _ _ _ hq]
      · rw [set_traces_self]

/-- C9: calling exit on a segment that has a parent but was never activated
logs the defect and returns with the world unchanged: no field of the
segment, its parent or the Registry is altered. The embedded exit has no
raising path, mirroring the source, whose defect branch only logs and
returns (lines 124-140). -/
theorem C9_exit_without_entry (fuel : Nat) (w : World) (i q : Nat) (now : ℤ)
    (excRaised : Bool)
    (hparent : (w.traces i).parent = some q)
    (hact : (w.traces i).activated = false) :
    exitTrace fuel w i now excRaised = w := by
  unfold exitTrace
  simp [hparent, hact]

/-- Witness for C9 at a concrete world. -/
theorem C9_witness : exitTrace 5 c9World 1 3 false = c9World :=
  C9_exit_without_entry 5 c9World 1 0 3 false (by decide) (by decide)

/-- C5: invoking complete_trace on a segment whose parent reference has
already been cleared, which is the mark of a finalized segment (the parent
is cleared exactly once, during _complete_trace), leaves the world
unchanged: no node is handed to the transaction or the parent a second
time and no state is altered; the source only logs the defect
(lines 486-497). -/
theorem C5_double_finalize (fuel : Nat) (w : World) (i : Nat)
    (h : (w.traces i).parent = none) :
    completeTrace fuel w i = w := by
  have hbody : ∀ f, completeBody f w i = (w, none) := by
    intro f
    unfold completeBody
    simp [h]
  have haux : completeTraceAux fuel w i = w := by
    cases fuel with
    | zero =>
      show (completeBody 0 w i).1 = w
      rw [hbody]
    | succ f =>
      unfold completeTraceAux
      rw [hbody]
  unfold completeTrace
  split
  · exact haux
  · rfl

/-- Witness for C5 at a concrete world. -/
theorem C5_witness : completeTrace 5 c5World 1 = c5World :=
  C5_double_finalize 5 c5World 1 (by decide)

theorem dictInsert_length_le {α : Type} (m : List (String × α)) (k : String) (v : α) :
    (dictInsert m k v).length ≤ m.length + 1 := by
  unfold dictInsert
  split
  · simp
  · simp

/-- C10: starting from the empty user attribute map of a fresh trace, no
sequence of add_custom_attribute calls ever grows the map beyond
MAX_NUM_USER_ATTRIBUTES entries; moreover a single call is dropped (map
returned unchanged) when the map is already at the limit, when no settings
resolve, or when high security mode is on. -/
theorem C10_user_attribute_limit {α : Type} :
    (∀ calls : List (Option Settings × String × α),
      (applyAttrCalls calls ([] : List (String × α))).length ≤ MAX_NUM_USER_ATTRIBUTES)
    ∧ (∀ (s : Option Settings) (m : List (String × α)) (k : String) (v : α),
        MAX_NUM_USER_ATTRIBUTES ≤ m.length → addCustomAttribute s m k v = m)
    ∧ (∀ (m : List (String × α)) (k : String) (v : α), addCustomAttribute none m k v = m)
    ∧ (∀ (s : Settings) (m : List (String × α)) (k : String) (v : α),
        s.high_security = true → addCustomAttribute (some s) m k v = m) := by
  have hstep : ∀ (c : Option Settings × String × α) (m : List (String × α)),
      m.length ≤ MAX_NUM_USER_ATTRIBUTES →
      (addCustomAttribute c.1 m c.2.1 c.2.2).length ≤ MAX_NUM_USER_ATTRIBUTES := by
    intro c m hm
    rcases hc1 : c.1 with _ | s
    · exact hm
    · show (if s.high_security then m
        else if MAX_NUM_USER_ATTRIBUTES ≤ m.length then m
        else dictInsert m c.2.1 c.2.2).length ≤ MAX_NUM_USER_ATTRIBUTES
      split
      · exact hm
      · split
        · exact hm
        · have hd := dictInsert_length_le m c.2.1 c.2.2
          omega

  have hinv : ∀ (calls : List (Option Settings × String × α)) (m : List (String × α)),
      m.length ≤ MAX_NUM_USER_ATTRIBUTES →
      (applyAttrCalls calls m).length ≤ MAX_NUM_USER_ATTRIBUTES := by
    intro calls
    induction calls with
    | nil => intro m hm; exact hm
    | cons c cs ih =>
      intro m hm
      show (applyAttrCalls cs (addCustomAttribute c.1 m c.2.1 c.2.2)).length ≤ _
      exact ih _ (hstep c m hm)
  refine ⟨fun calls => hinv calls [] (by simp [MAX_NUM_USER_ATTRIBUTES]), ?_, ?_, ?_⟩
  · intro s m k v hm
    unfold addCustomAttribute
    cases s with
    | none => rfl
    | some s2 =>
      by_cases hs : s2.high_security = true
      · simp [hs]
      · simp [hs, hm]
  · intro m k v
    rfl
  · intro s m k v hs
    unfold addCustomAttribute
    simp [hs]

/-- Witness for C10 at concrete inputs: a short call sequence stays within
the limit, and a call against a map already holding
MAX_NUM_USER_ATTRIBUTES entries is dropped. -/
theorem C10_witness :
    (applyAttrCalls (α := Nat)
      [(some { high_security := false }, "a", 1), (none, "b", 2)] []).length
        ≤ MAX_NUM_USER_ATTRIBUTES
    ∧ addCustomAttribute (α := Nat) (some { high_security := false })
        (List.replicate 128 ("k", 0)) "x" 7 = List.replicate 128 ("k", 0) :=
  ⟨(C10_user_attribute_limit (α := Nat)).1 _,
   (C10_user_attribute_limit (α := Nat)).2.1 _ _ _ _
     (by simp [MAX_NUM_USER_ATTRIBUTES])⟩

/-- C8 counterexample: the claim states that once more than one child of a
segment has been outstanding simultaneously, has_async_children
subsequently reads true. In the source, increment_child_count recomputes
the flag at every spawn and resets it to False when all previous children
have resolved (lines 616-620). Concretely: after two concurrent spawns the
flag is true, yet after both children resolve and a third child is
spawned, the flag reads false again, although the two-outstanding point
occurred in the history. -/
theorem C8_counterexample :
    ((spawnChild (spawnChild c8World 0) 0).traces 0).has_async_children = true
    ∧ ((spawnChild
          (processChild 5
            (processChild 5 (spawnChild (spawnChild c8World 0) 0) 0 c8NodeA true)
            0 c8NodeB true) 0).traces 0).has_async_children = false := by
  decide

/-- C8 amended: has_async_children reflects only the most recent spawn: it
is true exactly when, at the latest increment_child_count, more than one
child (counting the new one) was outstanding; resolving children via
process_child never changes the flag, and a spawn that finds all previous
children resolved resets it to false. -/
theorem C8_flag_tracks_latest_spawn :
    (∀ (fuel : Nat) (w : World) (p q : Nat) (rs : List (Node × Bool)),
      ((rs.foldl (fun acc r => processChild fuel acc p r.1 r.2) w).traces q).has_async_children
        = (w.traces q).has_async_children)
    ∧ (∀ (w : World) (p : Nat),
      ((spawnChild w p).traces p).has_async_children
        = decide ((w.traces p).child_count + 1 - (w.traces p).children.length > 1)) := by
  constructor
  · intro fuel w p q rs
    induction rs generalizing w with
    | nil => rfl
    | cons r rs ih =>
      rw [List.foldl_cons, ih]
      have hc := (processChild_shape fuel w p r.1 r.2).1 q
      have h2 := congrArg TraceState.has_async_children hc
      exact h2
  · intro w p
    show ((w.set p (incrementChildCount (w.traces p))).traces p).has_async_children = _
    rw [set_traces_self]
    unfold incrementChildCount
    dsimp only
    split
    · next h => simp [h]
    · next h => simp [h]

theorem updateAsync_not_exited (fuel : Nat) (W : World) (i : Nat) (m d : ℤ)
    (h : (W.traces i).exited = false) :
    updateAsyncExclusiveTime fuel W i m d
      = W.set i { W.traces i with exclusive := (W.traces i).exclusive - d } := by
  have hstep : asyncStep W i m d =
      { w := W.set i { W.traces i with exclusive := (W.traces i).exclusive - d },
        parent := (W.traces i).parent, minStart2 := m, rem := 0 } := by
    unfold asyncStep
    simp [h]
  cases fuel with
  | zero =>
    show (asyncStep W i m d).w = _
    rw [hstep]
  | succ f =>
    show (match (asyncStep W i m d).parent with
      | some p => if 0 < (asyncStep W i m d).rem then
          updateAsyncExclusiveTime f (asyncStep W i m d).w p (asyncStep W i m d).minStart2
            (asyncStep W i m d).rem
        else (asyncStep W i m d).w
      | none => (asyncStep W i m d).w) = _
    rw [hstep]
    cases (W.traces i).parent with
    | none => rfl
    | some p => simp

/-- C1: a running parent with two async children spawned concurrently (both
outstanding before either resolves) over intervals t0 to t2 and t1 to t3
with t0 < t1 < t2 < t3 has exactly t3 - t0 subtracted from its exclusive
time when the batch resolves, not (t2 - t0) + (t3 - t1): the overlap of the
children is deducted once. The first child to resolve only records the
batch minimum; the second completes the batch, and the correction runs
with the batch interval t0 to t3. -/
theorem C1_async_overlap (fuel : Nat) (w : World) (p : Nat) (t0 t1 t2 t3 E : ℤ)
    (nA nB : Node)
    (h01 : t0 < t1) (h12 : t1 < t2) (h23 : t2 < t3)
    (hex : (w.traces p).exited = false)
    (hcc : (w.traces p).child_count = 2)
    (hch : (w.traces p).children = [])
    (hmin : (w.traces p).min_child_start_time = none)
    (hexcl : (w.traces p).exclusive = E)
    (hAs : nA.start_time = t0) (hAe : nA.end_time = t2)
    (hBs : nB.start_time = t1) (hBe : nB.end_time = t3) :
    ((processChild fuel (processChild fuel w p nA true) p nB true).traces p).exclusive
        = E - (t3 - t0)
    ∧ ((processChild fuel (processChild fuel w p nA true) p nB true).traces p).exclusive
        ≠ E - ((t2 - t0) + (t3 - t1)) := by
  have hc1 : ¬ ((w.traces p).child_count = ((w.traces p).children ++ [nA]).length) := by
    rw [hcc, hch]
    simp
  have key : ((processChild fuel (processChild fuel w p nA true) p nB true).traces p).exclusive
      = E - (t3 - t0) := by
    rw [processChild_nobatch_eq fuel w p nA hc1]
    set W1 := w.set p { w.traces p with
      children := (w.traces p).children ++ [nA],
      min_child_start_time := some (minUpd (w.traces p).min_child_start_time nA.start_time) }
      with hW1
    have hW1p : W1.traces p = { w.traces p with
        children := (w.traces p).children ++ [nA],
        min_child_start_time := some (minUpd (w.traces p).min_child_start_time nA.start_time) } := by
      rw [hW1]
      exact set_traces_self _ _ _
    have hc2 : (W1.traces p).child_count = ((W1.traces p).children ++ [nB]).length := by
      rw [hW1p]
      show (w.traces p).child_count = (((w.traces p).children ++ [nA]) ++ [nB]).length
      rw [hcc, hch]
      simp
    rw [processChild_batch_eq fuel W1 p nB hc2]
    have hMin : minUpd (W1.traces p).min_child_start_time nB.start_time = t0 := by
      rw [hW1p]
      show minUpd (some (minUpd (w.traces p).min_child_start_time nA.start_time)) nB.start_time = t0
      rw [hmin, hBs]
      show min (minUpd none nA.start_time) t1 = t0
      rw [hAs]
      show min t0 t1 = t0
      exact min_eq_left h01.le
    rw [hMin, hBe]
    set T2 := { W1.traces p with
      children := (W1.traces p).children ++ [nB],
      min_child_start_time := some t0 } with hT2
    have hW2ex : ((W1.set p T2).traces p).exited = false := by
      rw [set_traces_self, hT2]
      show (W1.traces p).exited = false
      rw [hW1p]
      show (w.traces p).exited = false
      exact hex
    rw [updateAsync_not_exited fuel (W1.set p T2) p t0 (t3 - t0) hW2ex]
    rw [set_traces_self]
    show ((((W1.set p T2).set p { (W1.set p T2).traces p with
        exclusive := ((W1.set p T2).traces p).exclusive - (t3 - t0) }).traces p)).exclusive
      = E - (t3 - t0)
    rw [set_traces_self]
    show ((W1.set p T2).traces p).exclusive - (t3 - t0) = E - (t3 - t0)
    rw [set_traces_self, hT2]
    show (W1.traces p).exclusive - (t3 - t0) = E - (t3 - t0)
    rw [hW1p]
    show (w.traces p).exclusive - (t3 - t0) = E - (t3 - t0)
    rw [hexcl]
  refine ⟨key, ?_⟩
  rw [key]
  intro heq
  have h2 : t1 = t2 := by linarith
  exact absurd h2 (ne_of_lt h12)

/-- Witness for C1 at the concrete scenario of the spec, section 8: parent
running, children over intervals 1 to 4 and 2 to 8; the deduction is 7,
not 9. -/
theorem C1_witness :
    ((processChild 5 (processChild 5 c1World 0 c1NodeA true) 0 c1NodeB true).traces 0).exclusive
        = 0 - (8 - 1)
    ∧ ((processChild 5 (processChild 5 c1World 0 c1NodeA true) 0 c1NodeB true).traces 0).exclusive
        ≠ 0 - ((4 - 1) + (8 - 2)) :=
  C1_async_overlap 5 c1World 0 1 2 4 8 0 c1NodeA c1NodeB
    (by norm_num) (by norm_num) (by norm_num)
    (by decide) (by decide) (by decide) (by decide) (by decide)
    rfl rfl rfl rfl

theorem exitTrace_run_eq (fuel : Nat) (w : World) (i : Nat) (now : ℤ) (b : Bool) (qq : Nat)
    (hp : (w.traces i).parent = some qq)
    (ha : (w.traces i).activated = true)
    (hal : w.txnAlive = true) :
    exitTrace fuel w i now b =
      (let e0 : ℤ := if w.txnStopped then w.txnEndTime else now
       let e : ℤ := if e0 < (w.traces i).start_time then (w.traces i).start_time else e0
       let t2 : TraceState := { w.traces i with
          end_time := e, duration := e - (w.traces i).start_time,
          exclusive := max ((w.traces i).exclusive + (e - (w.traces i).start_time)) 0,
          exited := true, exc_data := b }
       if readyToComplete t2 then completeTraceAux fuel (w.set i t2) i
       else { w.set i t2 with registry := (w.set i t2).registry.erase i }) := by
  unfold exitTrace
  dsimp only
  rw [hp]
  simp [ha, hal]

theorem completeBody_eq (fuel : Nat) (w : World) (i qq : Nat)
    (hp : (w.traces i).parent = some qq) :
    completeBody fuel w i =
      (let pt := w.traces qq
       let isAsync := if pt.exited || pt.has_async_children then true else (w.traces i).is_async
       let t2 := { w.traces i with is_async := isAsync, parent := none, exc_data := false, root := none }
       let w2 := w.set i t2
       let w3 := { w2 with registry := w2.registry.erase i }
       let node := mkNode i t2
       let w4 := { w3 with txnNodes := w3.txnNodes ++ [node] }
       (processChild fuel w4 qq node isAsync, some qq)) := by
  unfold completeBody
  dsimp only
  rw [hp]

theorem syncFold (fuel : Nat) (p : Nat) (ns : List Node) :
    ∀ (w : World),
      ((ns.foldl (fun acc n => processChild fuel acc p n false) w).traces p
        = { w.traces p with
            children := (w.traces p).children ++ ns,
            exclusive := (w.traces p).exclusive - (ns.map Node.duration).sum })
      ∧ (∀ q, q ≠ p →
          (ns.foldl (fun acc n => processChild fuel acc p n false) w).traces q = w.traces q)
      ∧ (ns.foldl (fun acc n => processChild fuel acc p n false) w).registry = w.registry
      ∧ (ns.foldl (fun acc n => processChild fuel acc p n false) w).txnNodes = w.txnNodes
      ∧ (ns.foldl (fun acc n => processChild fuel acc p n false) w).txnAlive = w.txnAlive
      ∧ (ns.foldl (fun acc n => processChild fuel acc p n false) w).txnStopped = w.txnStopped
      ∧ (ns.foldl (fun acc n => processChild fuel acc p n false) w).txnEndTime = w.txnEndTime := by
  induction ns with
  | nil =>
    intro w
    refine ⟨?_, fun q hq => rfl, rfl, rfl, rfl, rfl, rfl⟩
    show w.traces p = _
    simp
  | cons n ns ih =>
    intro w
    rw [List.foldl_cons, processChild_sync_eq]
    obtain ⟨ih1, ih2, ih3, ih4, ih5, ih6, ih7⟩ := ih (w.set p { w.traces p with
      children := (w.traces p).children ++ [n],
      exclusive := (w.traces p).exclusive - n.duration })
    rw [set_traces_self] at ih1
    refine ⟨?_, ?_, ih3, ih4, ih5, ih6, ih7⟩
    · rw [ih1]
      dsimp only
      simp [TraceState.mk.injEq, sub_sub, List.append_assoc]
    · intro q hq
      rw [ih2 q hq, set_traces_ne _ _ _ _ hq]

theorem completeBody_snd (fuel : Nat) (w : World) (i : Nat) :
    (completeBody fuel w i).2 = (w.traces i).parent := by
  unfold completeBody
  dsimp only
  cases h : (w.traces i).parent with
  | none => rfl
  | some p => rfl

theorem completeTraceAux_notready (fuel : Nat) (w : World) (i qq : Nat)
    (hp : (w.traces i).parent = some qq)
    (hnr : readyToComplete ((completeBody fuel w i).1.traces qq) = false) :
    completeTraceAux fuel w i = (completeBody fuel w i).1 := by
  cases fuel with
  | zero => rfl
  | succ f =>
    show (let r := completeBody (Nat.succ f) w i
      match r.2 with
      | some p => if readyToComplete (r.1.traces p) then completeTraceAux f r.1 p else r.1
      | none => r.1) = _
    dsimp only
    rw [completeBody_snd, hp]
    simp [hnr]

theorem sync_finish (fuel : Nat) (W : World) (p q : Nat) (T2 : TraceState)
    (hqp : q ≠ p)
    (hp2 : T2.parent = some q)
    (hasync2 : T2.is_async = false)
    (hqx2 : (W.traces q).exited = false)
    (hqf2 : (W.traces q).has_async_children = false) :
    (completeTraceAux fuel (W.set p T2) p).traces p
      = { T2 with is_async := false, parent := none, exc_data := false, root := none } := by
  have hp2w : ((W.set p T2).traces p).parent = some q := by
    rw [set_traces_self]
    exact hp2
  have hbody := completeBody_eq fuel (W.set p T2) p q hp2w
  rw [set_traces_ne _ _ _ _ hqp] at hbody
  rw [set_traces_self] at hbody
  dsimp only at hbody
  rw [hqx2, hqf2, hasync2] at hbody
  simp only [Bool.false_eq_true, Bool.or_self, if_false] at hbody
  rw [processChild_sync_eq] at hbody
  have hnr : readyToComplete ((completeBody fuel (W.set p T2) p).1.traces q) = false := by
    rw [hbody]
    dsimp only
    rw [set_traces_self]
    simp [readyToComplete, hasOutstandingChildren, set_traces_ne, hqp, hqx2]
  rw [completeTraceAux_notready fuel (W.set p T2) p q hp2w hnr, hbody]
  dsimp only
  rw [set_traces_ne _ _ _ _ (Ne.symm hqp)]
  rw [set_traces_self]

/-- C2: a parent whose children all ran synchronously (each resolved before
the next spawned, so every process_child call is the synchronous branch)
ends with exclusive time equal to its duration minus the sum of the child
durations, clamped below at zero; its recorded children are exactly the
resolved nodes. The parent here finalizes at its own exit underneath a
running grandparent. -/
theorem C2_sync_exclusive (fuel : Nat) (w : World) (p q : Nat) (ns : List Node)
    (now : ℤ) (b : Bool)
    (hqp : q ≠ p)
    (hparent : (w.traces p).parent = some q)
    (hact : (w.traces p).activated = true)
    (halive : w.txnAlive = true)
    (hstop : w.txnStopped = false)
    (hexcl : (w.traces p).exclusive = 0)
    (hch : (w.traces p).children = [])
    (hcc : (w.traces p).child_count = ns.length)
    (hasync : (w.traces p).is_async = false)
    (hqx : (w.traces q).exited = false)
    (hqf : (w.traces q).has_async_children = false) :
    ((exitTrace fuel (ns.foldl (fun acc n => processChild fuel acc p n false) w) p now b).traces p).exclusive
      = max (((exitTrace fuel (ns.foldl (fun acc n => processChild fuel acc p n false) w) p now b).traces p).duration
          - (ns.map Node.duration).sum) 0
    ∧ ((exitTrace fuel (ns.foldl (fun acc n => processChild fuel acc p n false) w) p now b).traces p).children = ns := by
  obtain ⟨hf1, hf2, hf3, hf4, hf5, hf6, hf7⟩ := syncFold fuel p ns w
  set W1 := ns.foldl (fun acc n => processChild fuel acc p n false) w with hW1
  have hT1 : W1.traces p =
      { w.traces p with
        children := ns,
        exclusive := 0 - (ns.map Node.duration).sum } := by
    rw [hf1, hch, hexcl]
    simp
  have hT1parent : (W1.traces p).parent = some q := by
    rw [hT1]
    exact hparent
  have hT1act : (W1.traces p).activated = true := by
    rw [hT1]
    exact hact
  have hT1alive : W1.txnAlive = true := by
    rw [hf5]
    exact halive
  rw [exitTrace_run_eq fuel W1 p now b q hT1parent hT1act hT1alive]
  dsimp only
  rw [hT1]
  dsimp only
  rw [hf6, hstop]
  simp only [Bool.false_eq_true, if_false]
  generalize hE : (if now < (w.traces p).start_time then (w.traces p).start_time else now) = e
  have haux := sync_finish fuel W1 p q
    { w.traces p with
      children := ns,
      end_time := e,
      duration := e - (w.traces p).start_time,
      exclusive := max ((0 - (ns.map Node.duration).sum) + (e - (w.traces p).start_time)) 0,
      exited := true,
      exc_data := b }
    hqp (by exact hparent) (by exact hasync)
    (by rw [hf2 q hqp]; exact hqx) (by rw [hf2 q hqp]; exact hqf)
  dsimp only at haux
  split
  · rw [haux]
    refine ⟨?_, rfl⟩
    show max ((0 - (ns.map Node.duration).sum) + (e - (w.traces p).start_time)) 0
      = max ((e - (w.traces p).start_time) - (ns.map Node.duration).sum) 0
    have harith : (0 - (ns.map Node.duration).sum) + (e - (w.traces p).start_time)
        = (e - (w.traces p).start_time) - (ns.map Node.duration).sum := by ring
    rw [harith]
  · next h =>
    simp [readyToComplete, hasOutstandingChildren, hcc] at h

/-- Witness for C2 at the concrete scenario of the spec, section 8: parent
running 0 to 8 with synchronous children of durations 5 and 3; exclusive
time is max(8 - 8, 0) = 0. -/
theorem C2_witness :
    ((exitTrace 5 ([c2NodeA, c2NodeB].foldl (fun acc n => processChild 5 acc 1 n false) c2World)
        1 8 false).traces 1).exclusive
      = max (((exitTrace 5 ([c2NodeA, c2NodeB].foldl (fun acc n => processChild 5 acc 1 n false) c2World)
          1 8 false).traces 1).duration
        - ([c2NodeA, c2NodeB].map Node.duration).sum) 0
    ∧ ((exitTrace 5 ([c2NodeA, c2NodeB].foldl (fun acc n => processChild 5 acc 1 n false) c2World)
        1 8 false).traces 1).children = [c2NodeA, c2NodeB] :=
  C2_sync_exclusive 5 c2World 1 0 [c2NodeA, c2NodeB] 8 false
    (by decide) (by decide) (by decide) (by decide) (by decide) (by decide)
    (by decide) (by decide) (by decide) (by decide) (by decide)

theorem exitTrace_no_parent (fuel : Nat) (w : World) (i : Nat) (now : ℤ) (b : Bool)
    (h : (w.traces i).parent = none) : exitTrace fuel w i now b = w := by
  unfold exitTrace
  simp [h]

theorem enter_abort_eq (w : World) (i p : Nat) (now : ℤ) (pf : Bool)
    (hparent : (w.traces i).parent = some p)
    (hip : i ≠ p)
    (habort : ((w.traces p).exited || (w.traces p).is_terminal) = true) :
    enter w i now pf =
      ((w.set i { w.traces i with parent := some p }).set i
        { (w.set i { w.traces i with parent := some p }).traces i with parent := none },
       EnterResult.parentObj p) := by
  unfold enter
  dsimp only
  rw [hparent]
  dsimp only
  rw [set_traces_ne _ _ _ _ (Ne.symm hip), habort]
  simp

/-- C7 counterexample: the claim also states that exiting the returned
object (the parent) is a no-op. When the returned parent is exited but
still awaiting an outstanding async child (deferred completion, so its
parent link is still set and it is activated), calling exit on it runs the
full exit body again: here it overwrites the recorded end time 5 with 7.
Entry suppression itself behaves as claimed (the parent object is
returned), but exiting the returned object is not a no-op. -/
theorem C7_counterexample :
    (enter c7World 2 6 false).2 = EnterResult.parentObj 1
    ∧ ((enter c7World 2 6 false).1.traces 1).end_time = 5
    ∧ ((exitTrace 5 (enter c7World 2 6 false).1 1 7 false).traces 1).end_time = 7 := by
  decide

/-- C7 amended: entering a segment whose resolved parent is already exited
or terminal returns the parent object, mutates nothing but the parent link
of the new segment (which is cleared), leaves every other trace, the
Registry and the transaction node list unchanged, and a subsequent exit of
the NEW segment object is a no-op because its parent link is cleared.
Exiting the returned parent object itself need not be a no-op when that
parent is exited but awaiting async children (see the counterexample). -/
theorem C7_suppressed_entry (w : World) (i p : Nat) (now now2 : ℤ) (fuel : Nat) (b : Bool)
    (hip : i ≠ p)
    (hparent : (w.traces i).parent = some p)
    (habort : (w.traces p).exited = true ∨ (w.traces p).is_terminal = true) :
    (enter w i now false).2 = EnterResult.parentObj p
    ∧ (enter w i now false).1.traces i = { w.traces i with parent := none }
    ∧ (∀ j, j ≠ i → (enter w i now false).1.traces j = w.traces j)
    ∧ (enter w i now false).1.registry = w.registry
    ∧ (enter w i now false).1.txnNodes = w.txnNodes
    ∧ exitTrace fuel (enter w i now false).1 i now2 b = (enter w i now false).1 := by
  have habort2 : ((w.traces p).exited || (w.traces p).is_terminal) = true := by
    rcases habort with h | h
    · rw [h]
      simp
    · rw [h]
      simp
  rw [enter_abort_eq w i p now false hparent hip habort2]
  refine ⟨rfl, ?_, ?_, rfl, rfl, ?_⟩
  · rw [set_traces_self, set_traces_self]
  · intro j hj
    rw [set_traces_ne _ _ _ _ hj, set_traces_ne _ _ _ _ hj]
  · dsimp only
    refine exitTrace_no_parent fuel _ i now2 b ?_
    rw [set_traces_self]

/-- Witness for the amended C7 at a concrete world: entry under the exited
parent 1 returns the parent object and exiting the new segment object 2 is
a no-op. -/
theorem C7_witness :
    (enter c7World 2 6 false).2 = EnterResult.parentObj 1
    ∧ exitTrace 5 (enter c7World 2 6 false).1 2 7 false = (enter c7World 2 6 false).1 :=
  ⟨(C7_suppressed_entry c7World 2 1 6 7 5 false (by decide) (by decide)
      (Or.inl (by decide))).1,
   (C7_suppressed_entry c7World 2 1 6 7 5 false (by decide) (by decide)
      (Or.inl (by decide))).2.2.2.2.2⟩

theorem incrementChildCount_count (t : TraceState) :
    (incrementChildCount t).child_count = t.child_count + 1 := by
  unfold incrementChildCount
  dsimp only
  split
  · rfl
  · rfl

/-- C6 counterexample: the claim states that when the Registry push raises
during entry, no state beyond the rolled-back parent link has been
mutated. In the source, increment_child_count on the parent, the root
assignment and the start time stamp all happen before the push attempt and
are not rolled back: at a concrete world, the failed entry leaves the
parent child_count incremented from 0 to 1 and the segment root set. -/
theorem C6_counterexample :
    (enter c6World 1 5 true).2 = EnterResult.raised
    ∧ ((enter c6World 1 5 true).1.traces 0).child_count = 1
    ∧ (c6World.traces 0).child_count = 0
    ∧ ((enter c6World 1 5 true).1.traces 1).root = some 0
    ∧ (c6World.traces 1).root = none := by
  decide

theorem enter_pushfail_eq (w : World) (i p r : Nat) (now : ℤ)
    (hip : i ≠ p)
    (hparent : (w.traces i).parent = some p)
    (hpx : (w.traces p).exited = false)
    (hpt : (w.traces p).is_terminal = false)
    (hroot : (w.traces p).root = some r)
    (halive : w.txnAlive = true)
    (hstop : w.txnStopped = false)
    (hen : w.txnEnabled = true) :
    enter w i now true =
      (let w1 := w.set i { w.traces i with parent := some p }
       let w2 := w1.set p (incrementChildCount (w.traces p))
       let w3 := w2.set i { w2.traces i with root := some r, start_time := now }
       (w3.set i { w3.traces i with parent := none }, EnterResult.raised)) := by
  unfold enter
  dsimp only
  rw [hparent]
  dsimp only
  rw [set_traces_ne _ _ _ _ (Ne.symm hip), hpx, hpt, hroot]
  rw [set_txnAlive, halive, set_txnStopped, hstop, set_txnEnabled, hen]
  simp

/-- C6 amended: when the Registry push raises during entry, the exception
propagates (result raised), the parent link of the segment is rolled back
to None, the segment is not activated, and the Registry and transaction
are untouched; however the increment of the parent child_count (and the
root and start time assignments on the segment) persist. -/
theorem C6_push_failure (w : World) (i p r : Nat) (now : ℤ)
    (hip : i ≠ p)
    (hparent : (w.traces i).parent = some p)
    (hpx : (w.traces p).exited = false)
    (hpt : (w.traces p).is_terminal = false)
    (hroot : (w.traces p).root = some r)
    (halive : w.txnAlive = true)
    (hstop : w.txnStopped = false)
    (hen : w.txnEnabled = true) :
    (enter w i now true).2 = EnterResult.raised
    ∧ ((enter w i now true).1.traces i).parent = none
    ∧ ((enter w i now true).1.traces i).activated = (w.traces i).activated
    ∧ (enter w i now true).1.registry = w.registry
    ∧ (enter w i now true).1.txnNodes = w.txnNodes
    ∧ ((enter w i now true).1.traces p).child_count = (w.traces p).child_count + 1 := by
  rw [enter_pushfail_eq w i p r now hip hparent hpx hpt hroot halive hstop hen]
  dsimp only
  refine ⟨rfl, ?_, ?_, rfl, rfl, ?_⟩
  · rw [set_traces_self]
  · simp [World.set, hip]
  · simp [World.set, hip, Ne.symm hip, incrementChildCount_count]

/-- Witness for the amended C6 at a concrete world. -/
theorem C6_witness :
    (enter c6World 1 5 true).2 = EnterResult.raised
    ∧ ((enter c6World 1 5 true).1.traces 1).parent = none
    ∧ ((enter c6World 1 5 true).1.traces 1).activated = (c6World.traces 1).activated
    ∧ (enter c6World 1 5 true).1.registry = c6World.registry
    ∧ (enter c6World 1 5 true).1.txnNodes = c6World.txnNodes
    ∧ ((enter c6World 1 5 true).1.traces 0).child_count = (c6World.traces 0).child_count + 1 :=
  C6_push_failure c6World 1 0 0 5 (by decide) (by decide) (by decide) (by decide)
    (by decide) (by decide) (by decide) (by decide)

/-- C3 counterexample: the claim states that exclusive time is at least 0
after finalization in every execution, including those where async
children finalize after the segment exits. In c3World the grandchildren
exit at 20 and 30. The second exit resolves the grandchild batch on trace
2 (interval 1 to 30), pushing the surplus up to trace 1 and charging it
10 - 5 = 5; then trace 2 finalizes into trace 1, whose single-child batch
resolves with interval start 0, and update_async_exclusive_time charges
trace 1 its full end_time - 0 = 10 although the child node only covers 0
to 5. Trace 1 then finalizes (parent and root cleared, its node handed to
the transaction exactly once) with exclusive time -5 < 0. -/
theorem C3_counterexample :
    ((exitTrace 10 (exitTrace 10 c3World 3 20 false) 4 30 false).traces 1).parent = none
    ∧ ((exitTrace 10 (exitTrace 10 c3World 3 20 false) 4 30 false).traces 1).root = none
    ∧ (((exitTrace 10 (exitTrace 10 c3World 3 20 false) 4 30 false).txnNodes.filter
        (fun n => n.id == 1)).length = 1)
    ∧ ((exitTrace 10 (exitTrace 10 c3World 3 20 false) 4 30 false).traces 1).exclusive < 0 := by
  decide

/-- C3 amended: the non-negativity clamp is applied at exit, so a segment
that is ready to complete at its own exit (here: a leaf segment under a
running parent) finalizes with exclusive time at least 0. Deductions
applied later by update_async_exclusive_time are unclamped, so a segment
whose async descendants finalize after its exit can end below 0 (see the
counterexample). -/
theorem C3_exit_clamp (fuel : Nat) (w : World) (i q : Nat) (now : ℤ) (b : Bool)
    (hqi : q ≠ i)
    (hparent : (w.traces i).parent = some q)
    (hact : (w.traces i).activated = true)
    (halive : w.txnAlive = true)
    (hleaf : (w.traces i).child_count = 0)
    (hch : (w.traces i).children = [])
    (hasync : (w.traces i).is_async = false)
    (hqx : (w.traces q).exited = false)
    (hqf : (w.traces q).has_async_children = false) :
    ((exitTrace fuel w i now b).traces i).parent = none
    ∧ 0 ≤ ((exitTrace fuel w i now b).traces i).exclusive := by
  rw [exitTrace_run_eq fuel w i now b q hparent hact halive]
  dsimp only
  generalize (if w.txnStopped = true then w.txnEndTime else now) = e0
  generalize (if e0 < (w.traces i).start_time then (w.traces i).start_time else e0) = e
  have haux := sync_finish fuel w i q
    { w.traces i with
      end_time := e,
      duration := e - (w.traces i).start_time,
      exclusive := max ((w.traces i).exclusive + (e - (w.traces i).start_time)) 0,
      exited := true,
      exc_data := b }
    hqi (by exact hparent) (by exact hasync) hqx hqf
  dsimp only at haux
  split
  · rw [haux]
    exact ⟨rfl, le_max_right _ _⟩
  · next h =>
    simp [readyToComplete, hasOutstandingChildren, hch, hleaf] at h

/-- Witness for the amended C3 at a concrete world: a leaf segment under
the running root finalizes at exit with nonnegative exclusive time. -/
theorem C3_witness :
    ((exitTrace 5 c3LeafWorld 1 7 false).traces 1).parent = none
    ∧ 0 ≤ ((exitTrace 5 c3LeafWorld 1 7 false).traces 1).exclusive :=
  C3_exit_clamp 5 c3LeafWorld 1 0 7 false (by decide) (by decide) (by decide) (by decide)
    (by decide) (by decide) (by decide) (by decide) (by decide)

theorem completeBody_fst (fuel : Nat) (w : World) (i p : Nat)
    (hp : (w.traces i).parent = some p) :
    (completeBody fuel w i).1
      = processChild fuel
          { w.set i (finalizedOf w i p) with
            registry := w.registry.erase i,
            txnNodes := w.txnNodes ++ [mkNode i (finalizedOf w i p)] }
          p (mkNode i (finalizedOf w i p)) (childIsAsync w i p) := by
  rw [completeBody_eq fuel w i p hp]
  rfl

theorem completeTraceAux_succ_ready (f : Nat) (w : World) (i qq : Nat)
    (hsnd : (w.traces i).parent = some qq)
    (hready : readyToComplete ((completeBody (Nat.succ f) w i).1.traces qq) = true) :
    completeTraceAux (Nat.succ f) w i
      = completeTraceAux f (completeBody (Nat.succ f) w i).1 qq := by
  show (let r := completeBody (Nat.succ f) w i
    match r.2 with
    | some p => if readyToComplete (r.1.traces p) then completeTraceAux f r.1 p else r.1
    | none => r.1) = _
  dsimp only
  rw [completeBody_snd, hsnd]
  dsimp only
  rw [hready]
  simp

theorem readyToComplete_not_exited (t : TraceState) (h : t.exited = false) :
    readyToComplete t = false := by
  unfold readyToComplete
  rw [h]
  rfl

theorem deferred_finish (fuel : Nat) (W : World) (c p g : Nat) (T2C : TraceState)
    (hcp : c ≠ p) (hcg : c ≠ g) (hpg : p ≠ g)
    (hT2Cparent : T2C.parent = some p)
    (hpExited : (W.traces p).exited = true)
    (hpParent : (W.traces p).parent = some g)
    (hpCount : (W.traces p).child_count = 1)
    (hpCh : (W.traces p).children = [])
    (hpAsync : (W.traces p).is_async = false)
    (hgExited : (W.traces g).exited = false)
    (hgFlag : (W.traces g).has_async_children = false) :
    ((completeTraceAux (Nat.succ fuel) (W.set c T2C) c).traces p).parent = none
    ∧ ((completeTraceAux (Nat.succ fuel) (W.set c T2C) c).traces p).root = none
    ∧ (completeTraceAux (Nat.succ fuel) (W.set c T2C) c).txnNodes.map Node.id
        = W.txnNodes.map Node.id ++ [c, p] := by
  set W2 := W.set c T2C with hW2
  have hW2c : W2.traces c = T2C := by
    rw [hW2]
    exact set_traces_self _ _ _
  have hW2p : W2.traces p = W.traces p := by
    rw [hW2]
    exact set_traces_ne _ _ _ _ (Ne.symm hcp)
  have hW2g : W2.traces g = W.traces g := by
    rw [hW2]
    exact set_traces_ne _ _ _ _ (Ne.symm hcg)
  have hc_parent : (W2.traces c).parent = some p := by
    rw [hW2c]
    exact hT2Cparent
  set FC := finalizedOf W2 c p with hFC
  set nodeC := mkNode c FC with hnodeC
  set WW : World :=
    { W2.set c FC with
      registry := W2.registry.erase c,
      txnNodes := W2.txnNodes ++ [nodeC] } with hWW
  have hbody1 : (completeBody (Nat.succ fuel) W2 c).1
      = processChild (Nat.succ fuel) WW p nodeC (childIsAsync W2 c p) := by
    rw [completeBody_fst (Nat.succ fuel) W2 c p hc_parent]
  set BODY1 := processChild (Nat.succ fuel) WW p nodeC (childIsAsync W2 c p) with hBODY1
  obtain ⟨hS1core, hS1children, hS1reg, hS1nodes, hS1alive, hS1stop, hS1end⟩ :=
    processChild_shape (Nat.succ fuel) WW p nodeC (childIsAsync W2 c p)
  have hWWp : WW.traces p = W.traces p := by
    rw [hWW]
    show ((W2.set c FC).traces p) = _
    rw [set_traces_ne _ _ _ _ (Ne.symm hcp), hW2p]
  have hWWg : WW.traces g = W.traces g := by
    rw [hWW]
    show ((W2.set c FC).traces g) = _
    rw [set_traces_ne _ _ _ _ (Ne.symm hcg), hW2g]
  have hB1p_core : (BODY1.traces p).core = (W.traces p).core :=
    (hS1core p).trans (congrArg TraceState.core hWWp)
  have hB1p_children : (BODY1.traces p).children = [nodeC] := by
    rw [hS1children, hWWp, hpCh]
    simp
  have hB1p_exited : (BODY1.traces p).exited = true := by
    have h2 := congrArg TraceState.exited hB1p_core
    exact h2.trans hpExited
  have hB1p_count : (BODY1.traces p).child_count = 1 := by
    have h2 := congrArg TraceState.child_count hB1p_core
    exact h2.trans hpCount
  have hB1p_parent : (BODY1.traces p).parent = some g := by
    have h2 := congrArg TraceState.parent hB1p_core
    exact h2.trans hpParent
  have hB1p_async : (BODY1.traces p).is_async = false := by
    have h2 := congrArg TraceState.is_async hB1p_core
    exact h2.trans hpAsync
  have hB1g_core : (BODY1.traces g).core = (W.traces g).core :=
    (hS1core g).trans (congrArg TraceState.core hWWg)
  have hB1g_exited : (BODY1.traces g).exited = false := by
    have h2 := congrArg TraceState.exited hB1g_core
    exact h2.trans hgExited
  have hB1g_flag : (BODY1.traces g).has_async_children = false := by
    have h2 := congrArg TraceState.has_async_children hB1g_core
    exact h2.trans hgFlag
  have hready : readyToComplete ((completeBody (Nat.succ fuel) W2 c).1.traces p) = true := by
    rw [hbody1]
    unfold readyToComplete hasOutstandingChildren
    rw [hB1p_children, hB1p_exited, hB1p_count]
    simp
  have hstep1 : completeTraceAux (Nat.succ fuel) W2 c
      = completeTraceAux fuel (completeBody (Nat.succ fuel) W2 c).1 p :=
    completeTraceAux_succ_ready fuel W2 c p hc_parent hready
  rw [hstep1, hbody1]
  have hCA2 : childIsAsync BODY1 p g = false := by
    unfold childIsAsync
    rw [hB1g_exited, hB1g_flag, hB1p_async]
    simp
  set FP := finalizedOf BODY1 p g with hFP
  set nodeP := mkNode p FP with hnodeP
  set WW2 : World :=
    { BODY1.set p FP with
      registry := BODY1.registry.erase p,
      txnNodes := BODY1.txnNodes ++ [nodeP] } with hWW2
  have hbody2 : (completeBody fuel BODY1 p).1
      = processChild fuel WW2 g nodeP (childIsAsync BODY1 p g) := by
    rw [completeBody_fst fuel BODY1 p g hB1p_parent]
  have hWW2g_exited : (WW2.traces g).exited = false := by
    rw [hWW2]
    show ((BODY1.set p FP).traces g).exited = false
    rw [set_traces_ne _ _ _ _ (Ne.symm hpg)]
    exact hB1g_exited
  have hnr2 : readyToComplete ((completeBody fuel BODY1 p).1.traces g) = false := by
    rw [hbody2, hCA2, processChild_sync_eq, set_traces_self]
    refine readyToComplete_not_exited _ ?_
    show (WW2.traces g).exited = false
    exact hWW2g_exited
  have hstep2 : completeTraceAux fuel BODY1 p = (completeBody fuel BODY1 p).1 :=
    completeTraceAux_notready fuel BODY1 p g hB1p_parent hnr2
  rw [hstep2, hbody2, hCA2, processChild_sync_eq]
  refine ⟨?_, ?_, ?_⟩
  · rw [set_traces_ne _ _ _ _ hpg]
    rw [hWW2]
    show ((BODY1.set p FP).traces p).parent = none
    rw [set_traces_self, hFP]
    rfl
  · rw [set_traces_ne _ _ _ _ hpg]
    rw [hWW2]
    show ((BODY1.set p FP).traces p).root = none
    rw [set_traces_self, hFP]
    rfl
  · show (WW2.txnNodes).map Node.id = _
    rw [hWW2]
    show ((BODY1.txnNodes ++ [nodeP]).map Node.id) = _
    rw [hS1nodes, hWW]
    show ((W2.txnNodes ++ [nodeC] ++ [nodeP]).map Node.id) = _
    rw [hW2]
    show ((W.txnNodes ++ [nodeC] ++ [nodeP]).map Node.id) = _
    rw [hnodeC, hnodeP]
    simp [mkNode]

theorem exit_outstanding (fuel : Nat) (w : World) (i q : Nat) (now : ℤ) (b : Bool)
    (hparent : (w.traces i).parent = some q)
    (hact : (w.traces i).activated = true)
    (halive : w.txnAlive = true)
    (hout : (w.traces i).children.length ≠ (w.traces i).child_count) :
    ((exitTrace fuel w i now b).traces i).parent = some q
    ∧ ((exitTrace fuel w i now b).traces i).root = (w.traces i).root
    ∧ ((exitTrace fuel w i now b).traces i).exited = true
    ∧ ((exitTrace fuel w i now b).traces i).child_count = (w.traces i).child_count
    ∧ ((exitTrace fuel w i now b).traces i).children = (w.traces i).children
    ∧ ((exitTrace fuel w i now b).traces i).is_async = (w.traces i).is_async
    ∧ (∀ j, j ≠ i → (exitTrace fuel w i now b).traces j = w.traces j)
    ∧ (exitTrace fuel w i now b).txnNodes = w.txnNodes
    ∧ (exitTrace fuel w i now b).txnAlive = w.txnAlive
    ∧ (exitTrace fuel w i now b).txnStopped = w.txnStopped
    ∧ (exitTrace fuel w i now b).txnEndTime = w.txnEndTime := by
  rw [exitTrace_run_eq fuel w i now b q hparent hact halive]
  dsimp only
  generalize (if w.txnStopped = true then w.txnEndTime else now) = e0
  generalize (if e0 < (w.traces i).start_time then (w.traces i).start_time else e0) = e
  split
  · next h =>
    exfalso
    simp only [readyToComplete, hasOutstandingChildren, Bool.and_eq_true, Bool.not_eq_true',
      bne_eq_false_iff_eq] at h
    exact hout h.2
  · dsimp only
    refine ⟨?_, ?_, ?_, ?_, ?_, ?_, ?_, rfl, rfl, rfl, rfl⟩
    · rw [set_traces_self]
      exact hparent
    · rw [set_traces_self]
    · rw [set_traces_self]
    · rw [set_traces_self]
    · rw [set_traces_self]
    · rw [set_traces_self]
    · intro j hj
      rw [set_traces_ne _ _ _ _ hj]

theorem exit_last_deferred_child (fuel : Nat) (W1 : World) (c p g : Nat) (nowC : ℤ) (b2 : Bool)
    (hcp : c ≠ p) (hcg : c ≠ g) (hpg : p ≠ g)
    (hcParent : (W1.traces c).parent = some p)
    (hcAct : (W1.traces c).activated = true)
    (hcCount : (W1.traces c).child_count = 0)
    (hcCh : (W1.traces c).children = [])
    (halive : W1.txnAlive = true)
    (hpExited : (W1.traces p).exited = true)
    (hpParent : (W1.traces p).parent = some g)
    (hpCount : (W1.traces p).child_count = 1)
    (hpCh : (W1.traces p).children = [])
    (hpAsync : (W1.traces p).is_async = false)
    (hgExited : (W1.traces g).exited = false)
    (hgFlag : (W1.traces g).has_async_children = false) :
    ((exitTrace (Nat.succ fuel) W1 c nowC b2).traces p).parent = none
    ∧ ((exitTrace (Nat.succ fuel) W1 c nowC b2).traces p).root = none
    ∧ (exitTrace (Nat.succ fuel) W1 c nowC b2).txnNodes.map Node.id
        = W1.txnNodes.map Node.id ++ [c, p] := by
  rw [exitTrace_run_eq (Nat.succ fuel) W1 c nowC b2 p hcParent hcAct halive]
  dsimp only
  generalize (if W1.txnStopped = true then W1.txnEndTime else nowC) = e0
  generalize (if e0 < (W1.traces c).start_time then (W1.traces c).start_time else e0) = e
  split
  · exact deferred_finish fuel W1 c p g _ hcp hcg hpg (by exact hcParent) hpExited
      hpParent hpCount hpCh hpAsync hgExited hgFlag
  · next h =>
    exfalso
    simp [readyToComplete, hasOutstandingChildren, hcCh, hcCount] at h

/-- C4: a parent that exits while its async child is still outstanding
produces no node at exit (the transaction node list is unchanged and the
parent keeps its parent and root references, so it is not finalized).
When the last outstanding child later exits and finalizes, the parent node
is produced immediately, in the same call chain: afterwards the node list
has gained exactly the child node followed by the parent node, and the
parent is finalized (parent and root cleared). Production cannot recur:
once the parent reference is cleared, a further complete_trace is a no-op
(theorem C5_double_finalize). -/
theorem C4_deferred_node (fuel : Nat) (w : World) (p c g : Nat) (nowP nowC : ℤ)
    (b1 b2 : Bool)
    (hcp : c ≠ p) (hcg : c ≠ g) (hpg : p ≠ g)
    (hpParent : (w.traces p).parent = some g)
    (hpAct : (w.traces p).activated = true)
    (hpCount : (w.traces p).child_count = 1)
    (hpCh : (w.traces p).children = [])
    (hpAsync : (w.traces p).is_async = false)
    (hcParent : (w.traces c).parent = some p)
    (hcAct : (w.traces c).activated = true)
    (hcCount : (w.traces c).child_count = 0)
    (hcCh : (w.traces c).children = [])
    (hgExited : (w.traces g).exited = false)
    (hgFlag : (w.traces g).has_async_children = false)
    (halive : w.txnAlive = true) :
    (exitTrace (Nat.succ fuel) w p nowP b1).txnNodes = w.txnNodes
    ∧ ((exitTrace (Nat.succ fuel) w p nowP b1).traces p).parent = some g
    ∧ ((exitTrace (Nat.succ fuel) w p nowP b1).traces p).root = (w.traces p).root
    ∧ ((exitTrace (Nat.succ fuel) (exitTrace (Nat.succ fuel) w p nowP b1) c nowC b2).traces p).parent
        = none
    ∧ ((exitTrace (Nat.succ fuel) (exitTrace (Nat.succ fuel) w p nowP b1) c nowC b2).traces p).root
        = none
    ∧ (exitTrace (Nat.succ fuel) (exitTrace (Nat.succ fuel) w p nowP b1) c nowC b2).txnNodes.map Node.id
        = w.txnNodes.map Node.id ++ [c, p] := by
  have hout : (w.traces p).children.length ≠ (w.traces p).child_count := by
    rw [hpCh, hpCount]
    simp
  obtain ⟨f1, f2, f3, f4, f5, f6, f7, f8, f9, f10, f11⟩ :=
    exit_outstanding (Nat.succ fuel) w p g nowP b1 hpParent hpAct halive hout
  have hc1 : ((exitTrace (Nat.succ fuel) w p nowP b1).traces c).parent = some p := by
    rw [f7 c hcp]
    exact hcParent
  have hc2 : ((exitTrace (Nat.succ fuel) w p nowP b1).traces c).activated = true := by
    rw [f7 c hcp]
    exact hcAct
  have hc3 : ((exitTrace (Nat.succ fuel) w p nowP b1).traces c).child_count = 0 := by
    rw [f7 c hcp]
    exact hcCount
  have hc4 : ((exitTrace (Nat.succ fuel) w p nowP b1).traces c).children = [] := by
    rw [f7 c hcp]
    exact hcCh
  have ha1 : (exitTrace (Nat.succ fuel) w p nowP b1).txnAlive = true := by
    rw [f9]
    exact halive
  have hp3 : ((exitTrace (Nat.succ fuel) w p nowP b1).traces p).child_count = 1 :=
    f4.trans hpCount
  have hp4 : ((exitTrace (Nat.succ fuel) w p nowP b1).traces p).children = [] :=
    f5.trans hpCh
  have hp5 : ((exitTrace (Nat.succ fuel) w p nowP b1).traces p).is_async = false :=
    f6.trans hpAsync
  have hg1 : ((exitTrace (Nat.succ fuel) w p nowP b1).traces g).exited = false := by
    rw [f7 g (Ne.symm hpg)]
    exact hgExited
  have hg2 : ((exitTrace (Nat.succ fuel) w p nowP b1).traces g).has_async_children = false := by
    rw [f7 g (Ne.symm hpg)]
    exact hgFlag
  obtain ⟨p1, p2, p3⟩ :=
    exit_last_deferred_child fuel (exitTrace (Nat.succ fuel) w p nowP b1) c p g nowC b2
      hcp hcg hpg hc1 hc2 hc3 hc4 ha1 f3 f1 hp3 hp4 hp5 hg1 hg2
  refine ⟨f8, f1, f2, p1, p2, ?_⟩
  rw [p3, f8]

/-- Witness for C4 at a concrete world: parent 1 exits at time 4 with
child 2 outstanding, child 2 exits at time 9. -/
theorem C4_witness :
    (exitTrace 6 c4World 1 4 false).txnNodes = c4World.txnNodes
    ∧ ((exitTrace 6 c4World 1 4 false).traces 1).parent = some 0
    ∧ ((exitTrace 6 c4World 1 4 false).traces 1).root = (c4World.traces 1).root
    ∧ ((exitTrace 6 (exitTrace 6 c4World 1 4 false) 2 9 false).traces 1).parent = none
    ∧ ((exitTrace 6 (exitTrace 6 c4World 1 4 false) 2 9 false).traces 1).root = none
    ∧ (exitTrace 6 (exitTrace 6 c4World 1 4 false) 2 9 false).txnNodes.map Node.id
        = c4World.txnNodes.map Node.id ++ [2, 1] :=
  C4_deferred_node 5 c4World 1 2 0 4 9 false false
    (by decide) (by decide) (by decide) (by decide) (by decide) (by decide) (by decide)
    (by decide) (by decide) (by decide) (by decide) (by decide) (by decide) (by decide)
    (by decide)
